import Mathlib

/-!
Verification of the delta-rfq-arena guardrail validation engine and offer
lifecycle against its specification.

Shallow embedding conventions:
* Rust u64/u32/usize values are modelled as Nat; u64::saturating_sub is Nat
  subtraction (which is itself truncating at zero).
* Rust f64 values (feed prices, tolerance percentages, request sizes) are
  modelled as exact rationals; the engine only compares, subtracts, divides
  and scales them, so the rational model realises the source arithmetic
  exactly, abstracting floating-point rounding.
* chrono DateTime values are modelled as Unix-second naturals.  Wall-clock
  reads (chrono Utc now) are modelled by an explicit parameter called now.
* Random identifiers (Uuid v4 receipt and fill ids) carry no validation
  meaning and are omitted from the receipt model.
* Rust strings are Lean strings; the exact text produced by numeric
  formatting in error messages is abstracted by toString renderings.
-/

namespace RfqArena

/-- Guardrail document compiled from the maker text
(crates/models/src/constraints.rs, struct QuoteConstraints). -/
structure QuoteConstraints where
  quote_id : List Nat
  max_debit : Nat
  min_credit : Option Nat
  expiry_timestamp : Nat
  allowed_sources : List String
  max_staleness_secs : Nat
  quorum_count : Nat
  quorum_tolerance_percent : ℚ
  allowed_takers : List String
  allowed_assets : List String
  require_atomic_dvp : Bool
  no_side_payments : Bool
  nonce : Nat
  max_fill_size : Nat
  deriving DecidableEq

/-- Price-feed attestation (crates/models/src/constraints.rs, struct FeedEvidence). -/
structure FeedEvidence where
  source : String
  asset : String
  price : ℚ
  timestamp : Nat
  signature : String
  deriving DecidableEq

/-- Largest Unix-second value accepted by chrono DateTime::from_timestamp;
beyond it (and for u64 values that wrap to a negative i64) the conversion
fails and the source falls back to the current wall clock. -/
def chrono_max_timestamp : Nat := 8210266876799

/-- Models QuoteConstraints::expiry_datetime: DateTime::from_timestamp on the
expiry, with Utc::now() (the explicit now parameter) as the unwrap_or
fallback when out of range. -/
def QuoteConstraints.expiry_datetime (c : QuoteConstraints) (now : Nat) : Nat :=
  if c.expiry_timestamp ≤ chrono_max_timestamp then c.expiry_timestamp else now

/-- Models FeedEvidence::is_fresh: saturating age at most the staleness bound. -/
def FeedEvidence.is_fresh (e : FeedEvidence) (max_staleness_secs current_time : Nat) : Bool :=
  decide (current_time - e.timestamp ≤ max_staleness_secs)

/-- Input to the local laws (crates/local-laws/src/lib.rs, struct RfqLocalLawsInput). -/
structure RfqLocalLawsInput where
  constraints : QuoteConstraints
  taker_owner_id : String
  fill_size : Nat
  fill_price : Nat
  feed_evidence : List FeedEvidence
  current_timestamp : Nat
  transfer_leg_count : Nat
  has_extra_transfers : Bool
  deriving DecidableEq

/-- Rejection taxonomy (crates/models/src/fill.rs, enum RejectionReason).
DateTime diagnostic fields are Unix-second naturals, f64 fields rationals. -/
inductive RejectionReason where
  | QuoteExpired (expired_at attempted_at : Nat)
  | AlreadyFilled (filled_at : Nat)
  | StaleFeed (source : String) (feed_timestamp current_timestamp max_staleness_secs : Nat)
  | UnauthorizedSource (source : String) (allowed_sources : List String)
  | UnauthorizedTaker (taker : String) (allowed_takers : List String)
  | PriceExceedsLimit (offered_price limit_price : ℚ)
  | SizeExceedsMax (offered_size max_size : ℚ)
  | QuorumNotMet (sources_provided : Nat) (quorum_required : Nat)
      (price_spread_percent : Option ℚ) (max_tolerance_percent : ℚ)
  | SidePaymentDetected (description : String)
  | InvalidTransferPattern (expected actual : String)
  | InsufficientBalance (required available : Nat)
  | ValidationError (message : String)
  deriving DecidableEq

instance : DecidableEq (Except RejectionReason Unit) := fun a b =>
  match a, b with
  | .ok (), .ok () => isTrue rfl
  | .error x, .error y =>
    match decEq x y with
    | isTrue h => isTrue (by rw [h])
    | isFalse h => isFalse (by intro hc; injection hc with h2; exact h h2)
  | .ok (), .error _ => isFalse (by intro hc; exact Except.noConfusion hc)
  | .error _, .ok () => isFalse (by intro hc; exact Except.noConfusion hc)

/-- Per-attestation loop body of validate_feed_evidence_detailed
(crates/local-laws/src/lib.rs lines 245-268): source allowlist, then
freshness via saturating subtraction, accumulating the price on success.
Early return is modelled by the Except short circuit. -/
def collect_valid_prices (c : QuoteConstraints) (current_timestamp : Nat) :
    List FeedEvidence → Except RejectionReason (List ℚ)
  | [] => .ok []
  | evidence :: rest =>
    if c.allowed_sources ≠ [] ∧ evidence.source ∉ c.allowed_sources then
      .error (.UnauthorizedSource evidence.source c.allowed_sources)
    else if current_timestamp - evidence.timestamp > c.max_staleness_secs then
      .error (.StaleFeed evidence.source evidence.timestamp current_timestamp
        c.max_staleness_secs)
    else
      match collect_valid_prices c current_timestamp rest with
      | .error r => .error r
      | .ok ps => .ok (evidence.price :: ps)

/-- Translation of validate_feed_evidence_detailed
(crates/local-laws/src/lib.rs lines 230-289).  The source guard that
valid_prices has length at least two is rendered as the two-element list
pattern, and the min/max folds from the infinities over the whole list are
rendered as folds from the head over the tail, which agree on any nonempty
list of rationals. -/
def validate_feed_evidence_detailed (input : RfqLocalLawsInput) :
    Except RejectionReason Unit :=
  if input.feed_evidence.length < input.constraints.quorum_count then
    .error (.QuorumNotMet input.feed_evidence.length input.constraints.quorum_count
      none input.constraints.quorum_tolerance_percent)
  else
    match collect_valid_prices input.constraints input.current_timestamp
        input.feed_evidence with
    | .error r => .error r
    | .ok valid_prices =>
      match valid_prices with
      | p :: q :: rest =>
        if (q :: rest).foldl min p > 0 then
          if (((q :: rest).foldl max p - (q :: rest).foldl min p) /
              (q :: rest).foldl min p) * 100 >
              input.constraints.quorum_tolerance_percent then
            .error (.QuorumNotMet (p :: q :: rest).length
              input.constraints.quorum_count
              (some ((((q :: rest).foldl max p - (q :: rest).foldl min p) /
                (q :: rest).foldl min p) * 100))
              input.constraints.quorum_tolerance_percent)
          else .ok ()
        else .ok ()
      | _ => .ok ()

/-- Translation of validate_fill (crates/local-laws/src/lib.rs lines 171-227).
The now parameter models the chrono Utc::now() wall-clock read performed in
the QuoteExpired branch (line 178); everything else reads only the input. -/
def validate_fill (input : RfqLocalLawsInput) (now : Nat) :
    Except RejectionReason Unit :=
  if input.current_timestamp > input.constraints.expiry_timestamp then
    .error (.QuoteExpired (input.constraints.expiry_datetime now) now)
  else if input.constraints.allowed_takers ≠ [] ∧
      input.taker_owner_id ∉ input.constraints.allowed_takers then
    .error (.UnauthorizedTaker input.taker_owner_id input.constraints.allowed_takers)
  else if input.fill_size > input.constraints.max_fill_size then
    .error (.SizeExceedsMax (input.fill_size : ℚ) (input.constraints.max_fill_size : ℚ))
  else if input.fill_price > input.constraints.max_debit then
    .error (.PriceExceedsLimit (input.fill_price : ℚ) (input.constraints.max_debit : ℚ))
  else
    match validate_feed_evidence_detailed input with
    | .error r => .error r
    | .ok _ =>
      if input.constraints.require_atomic_dvp = true ∧
          input.transfer_leg_count ≠ 2 then
        .error (.InvalidTransferPattern ("2 legs (atomic DvP)")
          (toString input.transfer_leg_count ++ " legs"))
      else if input.constraints.no_side_payments = true ∧
          input.has_extra_transfers = true then
        .error (.SidePaymentDetected
          ("Extra transfers detected outside expected pattern"))
      else .ok ()

/-- Opaque error carried by the proof-sandbox validator
(delta_local_laws::LocalLawsError, constructed from a message string). -/
structure LocalLawsError where
  message : String
  deriving DecidableEq

/-- Models LocalLawsError::new. -/
def LocalLawsError.new (message : String) : LocalLawsError := ⟨message⟩

/-- Renders a string list where the source debug-formats a Vec of strings;
numeric and list formatting in messages is abstracted (see file header). -/
def listText (l : List String) : String := "[" ++ String.intercalate ", " l ++ "]"

/-- Per-attestation loop body of validate_feed_evidence
(crates/local-laws/src/lib.rs lines 126-147): same conditions as
collect_valid_prices, with string errors. -/
def collect_valid_prices_laws (c : QuoteConstraints) (current_timestamp : Nat) :
    List FeedEvidence → Except LocalLawsError (List ℚ)
  | [] => .ok []
  | evidence :: rest =>
    if c.allowed_sources ≠ [] ∧ evidence.source ∉ c.allowed_sources then
      .error (LocalLawsError.new ("Source " ++ evidence.source ++
        " not in allowlist. Allowed: " ++ listText c.allowed_sources))
    else if current_timestamp - evidence.timestamp > c.max_staleness_secs then
      .error (LocalLawsError.new ("Feed data from " ++ evidence.source ++
        " is stale: " ++ toString (current_timestamp - evidence.timestamp) ++
        "s old, max allowed is " ++ toString c.max_staleness_secs ++ "s"))
    else
      match collect_valid_prices_laws c current_timestamp rest with
      | .error r => .error r
      | .ok ps => .ok (evidence.price :: ps)

/-- Translation of validate_feed_evidence (crates/local-laws/src/lib.rs lines
112-166), the sandbox-side twin of validate_feed_evidence_detailed. -/
def validate_feed_evidence (input : RfqLocalLawsInput) :
    Except LocalLawsError Unit :=
  if input.feed_evidence.length < input.constraints.quorum_count then
    .error (LocalLawsError.new ("Quorum not met: " ++
      toString input.feed_evidence.length ++ " sources provided, " ++
      toString input.constraints.quorum_count ++ " required"))
  else
    match collect_valid_prices_laws input.constraints input.current_timestamp
        input.feed_evidence with
    | .error r => .error r
    | .ok valid_prices =>
      match valid_prices with
      | p :: q :: rest =>
        if (q :: rest).foldl min p > 0 then
          if (((q :: rest).foldl max p - (q :: rest).foldl min p) /
              (q :: rest).foldl min p) * 100 >
              input.constraints.quorum_tolerance_percent then
            .error (LocalLawsError.new ("Price spread " ++
              toString ((((q :: rest).foldl max p - (q :: rest).foldl min p) /
                (q :: rest).foldl min p) * 100) ++
              " exceeds tolerance " ++
              toString input.constraints.quorum_tolerance_percent))
          else .ok ()
        else .ok ()
      | _ => .ok ()

/-- Translation of the proof-sandbox evaluation RfqLocalLaws::validate
(crates/local-laws/src/lib.rs lines 45-108).  The verifiables and
verification-context arguments are ignored by the source and omitted here;
this function performs no wall-clock read. -/
def RfqLocalLaws.validate (input : RfqLocalLawsInput) :
    Except LocalLawsError Unit :=
  if input.current_timestamp > input.constraints.expiry_timestamp then
    .error (LocalLawsError.new ("Quote expired at timestamp " ++
      toString input.constraints.expiry_timestamp ++ ", current is " ++
      toString input.current_timestamp))
  else if input.constraints.allowed_takers ≠ [] ∧
      input.taker_owner_id ∉ input.constraints.allowed_takers then
    .error (LocalLawsError.new ("Taker " ++ input.taker_owner_id ++
      " not in allowlist. Allowed: " ++ listText input.constraints.allowed_takers))
  else if input.fill_size > input.constraints.max_fill_size then
    .error (LocalLawsError.new ("Fill size " ++ toString input.fill_size ++
      " exceeds max " ++ toString input.constraints.max_fill_size))
  else if input.fill_price > input.constraints.max_debit then
    .error (LocalLawsError.new ("Fill price " ++ toString input.fill_price ++
      " exceeds max debit " ++ toString input.constraints.max_debit))
  else
    match validate_feed_evidence input with
    | .error r => .error r
    | .ok _ =>
      if input.constraints.require_atomic_dvp = true ∧
          input.transfer_leg_count ≠ 2 then
        .error (LocalLawsError.new
          ("Atomic DvP required: expected 2 transfer legs, got " ++
            toString input.transfer_leg_count))
      else if input.constraints.no_side_payments = true ∧
          input.has_extra_transfers = true then
        .error (LocalLawsError.new
          ("Side-payments detected: extra transfers not allowed"))
      else .ok ()

/-!
Specification-level view of the engine, written from the spec wording for the
ordering claims: seven named checks, run in a fixed order, first failure wins.
Each check reproduces the corresponding source condition and rejection value.
-/

/-- Check 1 of the spec ordering: expiry. -/
def checkExpiry (input : RfqLocalLawsInput) (now : Nat) : Option RejectionReason :=
  if input.current_timestamp > input.constraints.expiry_timestamp then
    some (.QuoteExpired (input.constraints.expiry_datetime now) now)
  else none

/-- Check 2 of the spec ordering: taker allowlist. -/
def checkTaker (input : RfqLocalLawsInput) : Option RejectionReason :=
  if input.constraints.allowed_takers ≠ [] ∧
      input.taker_owner_id ∉ input.constraints.allowed_takers then
    some (.UnauthorizedTaker input.taker_owner_id input.constraints.allowed_takers)
  else none

/-- Check 3 of the spec ordering: size bound. -/
def checkSize (input : RfqLocalLawsInput) : Option RejectionReason :=
  if input.fill_size > input.constraints.max_fill_size then
    some (.SizeExceedsMax (input.fill_size : ℚ) (input.constraints.max_fill_size : ℚ))
  else none

/-- Check 4 of the spec ordering: debit bound. -/
def checkDebit (input : RfqLocalLawsInput) : Option RejectionReason :=
  if input.fill_price > input.constraints.max_debit then
    some (.PriceExceedsLimit (input.fill_price : ℚ) (input.constraints.max_debit : ℚ))
  else none

/-- Per-attestation part of check 5: source allowlist first, then staleness,
for a single attestation. -/
def attestation_check (c : QuoteConstraints) (current_timestamp : Nat)
    (evidence : FeedEvidence) : Option RejectionReason :=
  if c.allowed_sources ≠ [] ∧ evidence.source ∉ c.allowed_sources then
    some (.UnauthorizedSource evidence.source c.allowed_sources)
  else if current_timestamp - evidence.timestamp > c.max_staleness_secs then
    some (.StaleFeed evidence.source evidence.timestamp current_timestamp
      c.max_staleness_secs)
  else none

/-- Spread part of check 5: runs only when at least two prices were supplied,
is skipped when the minimum price is not positive, and otherwise rejects a
spread strictly above the tolerance, carrying the computed spread. -/
def spread_check (c : QuoteConstraints) (prices : List ℚ) : Option RejectionReason :=
  match prices with
  | p :: q :: rest =>
    if (q :: rest).foldl min p > 0 then
      if (((q :: rest).foldl max p - (q :: rest).foldl min p) /
          (q :: rest).foldl min p) * 100 > c.quorum_tolerance_percent then
        some (.QuorumNotMet (p :: q :: rest).length c.quorum_count
          (some ((((q :: rest).foldl max p - (q :: rest).foldl min p) /
            (q :: rest).foldl min p) * 100))
          c.quorum_tolerance_percent)
      else none
    else none
  | _ => none

/-- Check 5 of the spec ordering: feed-evidence validation, itself ordered as
quorum count, then the per-attestation checks in list order, then spread. -/
def checkFeed (input : RfqLocalLawsInput) : Option RejectionReason :=
  if input.feed_evidence.length < input.constraints.quorum_count then
    some (.QuorumNotMet input.feed_evidence.length input.constraints.quorum_count
      none input.constraints.quorum_tolerance_percent)
  else
    match input.feed_evidence.findSome?
        (attestation_check input.constraints input.current_timestamp) with
    | some r => some r
    | none => spread_check input.constraints
        (input.feed_evidence.map FeedEvidence.price)

/-- Check 6 of the spec ordering: settlement shape (atomic DvP). -/
def checkSettlement (input : RfqLocalLawsInput) : Option RejectionReason :=
  if input.constraints.require_atomic_dvp = true ∧
      input.transfer_leg_count ≠ 2 then
    some (.InvalidTransferPattern ("2 legs (atomic DvP)")
      (toString input.transfer_leg_count ++ " legs"))
  else none

/-- Check 7 of the spec ordering: side payments. -/
def checkSidePayments (input : RfqLocalLawsInput) : Option RejectionReason :=
  if input.constraints.no_side_payments = true ∧
      input.has_extra_transfers = true then
    some (.SidePaymentDetected ("Extra transfers detected outside expected pattern"))
  else none

/-- The seven checks of the spec, in the fixed spec order. -/
def specChecks (input : RfqLocalLawsInput) (now : Nat) : List (Option RejectionReason) :=
  [checkExpiry input now, checkTaker input, checkSize input, checkDebit input,
   checkFeed input, checkSettlement input, checkSidePayments input]

/-- First failing check in the fixed spec order, if any. -/
def firstFailure (input : RfqLocalLawsInput) (now : Nat) : Option RejectionReason :=
  (specChecks input now).findSome? id

/-- Turns the outcome of an optional failing check into the engine result. -/
def ofCheck : Option RejectionReason → Except RejectionReason Unit
  | some r => .error r
  | none => .ok ()

lemma findSome?_cons {α β : Type} (f : α → Option β) (a : α) (l : List α) :
    (a :: l).findSome? f =
      match f a with
      | some b => some b
      | none => l.findSome? f := rfl

lemma findSome?_nil {α β : Type} (f : α → Option β) :
    ([] : List α).findSome? f = none := rfl

/-- The accumulation loop of the detailed feed validator is the first failing
attestation check in list order, and on success yields all supplied prices. -/
lemma collect_valid_prices_eq (c : QuoteConstraints) (t : Nat) :
    ∀ l : List FeedEvidence, collect_valid_prices c t l =
      match l.findSome? (attestation_check c t) with
      | some r => Except.error r
      | none => Except.ok (l.map FeedEvidence.price)
  | [] => rfl
  | e :: rest => by
    rw [findSome?_cons]
    by_cases h1 : c.allowed_sources ≠ [] ∧ e.source ∉ c.allowed_sources
    · simp [collect_valid_prices, attestation_check, h1]
    · by_cases h2 : t - e.timestamp > c.max_staleness_secs
      · simp [collect_valid_prices, attestation_check, h1, h2]
      · have hstep : collect_valid_prices c t (e :: rest) =
            match collect_valid_prices c t rest with
            | .error r => .error r
            | .ok ps => .ok (e.price :: ps) := by
          simp [collect_valid_prices, h1, h2]
        have hatt : attestation_check c t e = none := by
          simp [attestation_check, h1, h2]
        rw [hstep, collect_valid_prices_eq c t rest, hatt]
        cases rest.findSome? (attestation_check c t) <;> simp

/-- The detailed feed validator equals the spec-side ordered feed check. -/
lemma validate_feed_evidence_detailed_eq (input : RfqLocalLawsInput) :
    validate_feed_evidence_detailed input = ofCheck (checkFeed input) := by
  unfold validate_feed_evidence_detailed checkFeed
  split_ifs with hq
  · rfl
  · rw [collect_valid_prices_eq]
    cases hf : input.feed_evidence.findSome?
        (attestation_check input.constraints input.current_timestamp) with
    | some r => rfl
    | none =>
      cases hm : input.feed_evidence.map FeedEvidence.price with
      | nil => rfl
      | cons p ps =>
        cases ps with
        | nil => simp [spread_check, ofCheck]
        | cons q rest =>
          simp only [spread_check]
          split_ifs <;> rfl

/-- The server-side engine is exactly the first failing check of the fixed
spec ordering. -/
lemma validate_fill_eq_firstFailure (input : RfqLocalLawsInput) (now : Nat) :
    validate_fill input now = ofCheck (firstFailure input now) := by
  unfold validate_fill firstFailure specChecks
  simp only [findSome?_cons, findSome?_nil, id_eq]
  by_cases h1 : input.current_timestamp > input.constraints.expiry_timestamp
  · simp [checkExpiry, h1, ofCheck]
  · by_cases h2 : input.constraints.allowed_takers ≠ [] ∧
        input.taker_owner_id ∉ input.constraints.allowed_takers
    · simp [checkExpiry, checkTaker, h1, h2, ofCheck]
    · by_cases h3 : input.fill_size > input.constraints.max_fill_size
      · simp [checkExpiry, checkTaker, checkSize, h1, h2, h3, ofCheck]
      · by_cases h4 : input.fill_price > input.constraints.max_debit
        · simp [checkExpiry, checkTaker, checkSize, checkDebit,
            h1, h2, h3, h4, ofCheck]
        · rw [validate_feed_evidence_detailed_eq]
          simp only [checkExpiry, checkTaker, checkSize, checkDebit,
            if_neg h1, if_neg h2, if_neg h3, if_neg h4]
          cases hc : checkFeed input with
          | some r => simp [ofCheck]
          | none =>
            by_cases h6 : input.constraints.require_atomic_dvp = true ∧
                input.transfer_leg_count ≠ 2
            · simp [checkSettlement, h6, ofCheck]
            · by_cases h7 : input.constraints.no_side_payments = true ∧
                  input.has_extra_transfers = true
              · simp [checkSettlement, checkSidePayments, h6, h7, ofCheck]
              · simp [checkSettlement, checkSidePayments, h6, h7, ofCheck]

/-- The sandbox-side and server-side attestation loops succeed on exactly the
same inputs, and then produce the same price list. -/
lemma collect_laws_ok_iff (c : QuoteConstraints) (t : Nat) :
    ∀ (l : List FeedEvidence) (ps : List ℚ),
      collect_valid_prices_laws c t l = .ok ps ↔ collect_valid_prices c t l = .ok ps
  | [], _ => by simp [collect_valid_prices_laws, collect_valid_prices]
  | e :: rest, ps => by
    by_cases h1 : c.allowed_sources ≠ [] ∧ e.source ∉ c.allowed_sources
    · simp [collect_valid_prices_laws, collect_valid_prices, h1]
    · by_cases h2 : t - e.timestamp > c.max_staleness_secs
      · simp [collect_valid_prices_laws, collect_valid_prices, h1, h2]
      · simp only [collect_valid_prices_laws, collect_valid_prices,
          if_neg h1, if_neg h2]
        cases hl : collect_valid_prices_laws c t rest with
        | error e1 =>
          cases hd : collect_valid_prices c t rest with
          | error r1 => simp
          | ok qs =>
            have h := (collect_laws_ok_iff c t rest qs).mpr hd
            rw [hl] at h
            exact absurd h (by simp)
        | ok qs =>
          have hd := (collect_laws_ok_iff c t rest qs).mp hl
          rw [hd]
          simp

/-- The two feed validators reach the same verdict on every input. -/
lemma feed_laws_ok_iff (input : RfqLocalLawsInput) :
    validate_feed_evidence input = .ok () ↔
      validate_feed_evidence_detailed input = .ok () := by
  unfold validate_feed_evidence validate_feed_evidence_detailed
  split_ifs with hq
  · simp
  · cases hd : collect_valid_prices input.constraints input.current_timestamp
        input.feed_evidence with
    | error r =>
      cases hl : collect_valid_prices_laws input.constraints
          input.current_timestamp input.feed_evidence with
      | error e1 => simp
      | ok qs =>
        have h := (collect_laws_ok_iff _ _ _ qs).mp hl
        rw [hd] at h
        exact absurd h (by simp)
    | ok ps =>
      have hl := (collect_laws_ok_iff _ _ _ ps).mpr hd
      rw [hl]
      cases ps with
      | nil => simp
      | cons p ps2 =>
        cases ps2 with
        | nil => simp
        | cons q rest =>
          dsimp only
          split_ifs <;> simp

/-- C3: for every RfqLocalLawsInput, the proof-sandbox evaluation
RfqLocalLaws::validate and the server-side evaluation validate_fill reach the
same verdict: validate returns Ok exactly when validate_fill returns Ok on
the same input (for any wall-clock value the server-side run observes). -/
theorem sandbox_server_same_verdict (input : RfqLocalLawsInput) (now : Nat) :
    RfqLocalLaws.validate input = .ok () ↔ validate_fill input now = .ok () := by
  unfold RfqLocalLaws.validate validate_fill
  by_cases h1 : input.current_timestamp > input.constraints.expiry_timestamp
  · simp [h1]
  · by_cases h2 : input.constraints.allowed_takers ≠ [] ∧
        input.taker_owner_id ∉ input.constraints.allowed_takers
    · simp [h1, h2]
    · by_cases h3 : input.fill_size > input.constraints.max_fill_size
      · simp [h1, h2, h3]
      · by_cases h4 : input.fill_price > input.constraints.max_debit
        · simp [h1, h2, h3, h4]
        · simp only [if_neg h1, if_neg h2, if_neg h3, if_neg h4]
          cases hl : validate_feed_evidence input with
          | error e =>
            cases hdd : validate_feed_evidence_detailed input with
            | error r => simp
            | ok u =>
              cases u
              have h := (feed_laws_ok_iff input).mpr hdd
              rw [hl] at h
              exact absurd h (by simp)
          | ok u =>
            cases u
            have hdd := (feed_laws_ok_iff input).mp hl
            rw [hdd]
            dsimp only
            split_ifs <;> simp

/-- C1: validate_fill runs the seven checks in the fixed order expiry, taker
allowlist, size bound, debit bound, feed evidence (quorum count, then the
per-attestation source and staleness checks in list order, then spread),
settlement shape, side payments, short-circuiting on the first failure: its
result is exactly the first failing check of that ordering, and it returns
Ok precisely when every check passes. -/
theorem validate_fill_runs_checks_in_fixed_order (input : RfqLocalLawsInput)
    (now : Nat) :
    validate_fill input now = ofCheck (firstFailure input now) ∧
    (validate_fill input now = .ok () ↔ ∀ o ∈ specChecks input now, o = none) := by
  refine ⟨validate_fill_eq_firstFailure input now, ?_⟩
  rw [validate_fill_eq_firstFailure input now]
  unfold firstFailure
  cases hff : (specChecks input now).findSome? id with
  | some r =>
    simp only [ofCheck]
    constructor
    · intro h
      exact absurd h (by simp)
    · intro hall
      obtain ⟨o, ho, hosome⟩ := List.exists_of_findSome?_eq_some hff
      rw [hall o ho] at hosome
      simp at hosome
  | none =>
    simp only [ofCheck]
    constructor
    · intro _ o ho
      have h := List.findSome?_eq_none_iff.mp hff o ho
      simpa using h
    · intro _
      trivial

/-- Minimal guardrail document used by concrete counterexamples: expires at
timestamp 10, everything else permissive or trivial. -/
def cexConstraints : QuoteConstraints where
  quote_id := []
  max_debit := 0
  min_credit := none
  expiry_timestamp := 10
  allowed_sources := []
  max_staleness_secs := 0
  quorum_count := 0
  quorum_tolerance_percent := 0
  allowed_takers := []
  allowed_assets := []
  require_atomic_dvp := false
  no_side_payments := false
  nonce := 0
  max_fill_size := 0

/-- Fill-evidence input whose evaluation time 11 is past the expiry 10. -/
def cexExpiredInput : RfqLocalLawsInput where
  constraints := cexConstraints
  taker_owner_id := "t"
  fill_size := 0
  fill_price := 0
  feed_evidence := []
  current_timestamp := 11
  transfer_leg_count := 2
  has_extra_transfers := false

/-- C2 (refuted): validate_fill is not a function of the input alone: on an
expired input the QuoteExpired diagnostics embed the wall clock read at
evaluation time (chrono Utc::now() at crates/local-laws/src/lib.rs line 178),
so two evaluations of the identical input at different wall-clock instants
return different Result values. -/
theorem validate_fill_reads_wall_clock :
    validate_fill cexExpiredInput 5 =
      .error (.QuoteExpired 10 5) ∧
    validate_fill cexExpiredInput 6 =
      .error (.QuoteExpired 10 6) ∧
    validate_fill cexExpiredInput 5 ≠ validate_fill cexExpiredInput 6 := by
  refine ⟨?_, ?_, ?_⟩ <;> decide

/-- C4: equality at every numeric boundary is accepted, never rejected: the
debit, expiry, size and staleness checks all compare with strict
greater-than on the offending side, and one past each of the debit and
expiry boundaries the engine rejects with PriceExceedsLimit and QuoteExpired
respectively. -/
theorem boundary_equalities_accepted (input : RfqLocalLawsInput) (now : Nat)
    (c : QuoteConstraints) (t : Nat) (e : FeedEvidence) :
    (input.fill_price = input.constraints.max_debit → checkDebit input = none) ∧
    (input.fill_price = input.constraints.max_debit + 1 →
      input.current_timestamp ≤ input.constraints.expiry_timestamp →
      (input.constraints.allowed_takers = [] ∨
        input.taker_owner_id ∈ input.constraints.allowed_takers) →
      input.fill_size ≤ input.constraints.max_fill_size →
      validate_fill input now =
        .error (.PriceExceedsLimit (input.fill_price : ℚ)
          (input.constraints.max_debit : ℚ))) ∧
    (input.current_timestamp = input.constraints.expiry_timestamp →
      checkExpiry input now = none) ∧
    (input.current_timestamp = input.constraints.expiry_timestamp + 1 →
      validate_fill input now =
        .error (.QuoteExpired (input.constraints.expiry_datetime now) now)) ∧
    (input.fill_size = input.constraints.max_fill_size → checkSize input = none) ∧
    ((c.allowed_sources = [] ∨ e.source ∈ c.allowed_sources) →
      t - e.timestamp = c.max_staleness_secs → attestation_check c t e = none) := by
  refine ⟨?_, ?_, ?_, ?_, ?_, ?_⟩
  · intro h
    simp [checkDebit, h]
  · intro hp hexp htak hsize
    unfold validate_fill
    rw [if_neg (by omega), if_neg (by tauto), if_neg (by omega),
      if_pos (by omega)]
  · intro h
    simp [checkExpiry, h]
  · intro h
    unfold validate_fill
    rw [if_pos (by omega)]
  · intro h
    simp [checkSize, h]
  · intro hsrc hage
    unfold attestation_check
    rw [if_neg (by tauto), if_neg (by omega)]

/-- Guardrails for the boundary witnesses: expiry 10, debit cap 5, size cap 3. -/
def cwConstraints : QuoteConstraints :=
  { cexConstraints with max_debit := 5, max_fill_size := 3 }

/-- Fill evidence sitting exactly on the debit, size and expiry boundaries. -/
def cwBoundaryInput : RfqLocalLawsInput :=
  { cexExpiredInput with
      constraints := cwConstraints, fill_price := 5, fill_size := 3,
      current_timestamp := 10 }

/-- Same input one unit past the debit boundary. -/
def cwOverDebitInput : RfqLocalLawsInput := { cwBoundaryInput with fill_price := 6 }

/-- Attestation whose age at evaluation time 3 is exactly the staleness cap 0. -/
def cwEvidence : FeedEvidence :=
  { source := "FeedA", asset := "dETH", price := 1, timestamp := 3,
    signature := "s" }

/-- Concrete instances of the boundary theorem. -/
theorem boundary_equalities_accepted_witness :
    checkDebit cwBoundaryInput = none ∧
    validate_fill cwOverDebitInput 0 =
      .error (.PriceExceedsLimit (cwOverDebitInput.fill_price : ℚ)
        (cwOverDebitInput.constraints.max_debit : ℚ)) ∧
    checkExpiry cwBoundaryInput 0 = none ∧
    validate_fill cexExpiredInput 5 =
      .error (.QuoteExpired (cexExpiredInput.constraints.expiry_datetime 5) 5) ∧
    checkSize cwBoundaryInput = none ∧
    attestation_check cwConstraints 3 cwEvidence = none := by
  refine ⟨?_, ?_, ?_, ?_, ?_, ?_⟩
  · exact (boundary_equalities_accepted cwBoundaryInput 0 cwConstraints 3
      cwEvidence).1 (by decide)
  · exact (boundary_equalities_accepted cwOverDebitInput 0 cwConstraints 3
      cwEvidence).2.1 (by decide) (by decide) (by decide) (by decide)
  · exact (boundary_equalities_accepted cwBoundaryInput 0 cwConstraints 3
      cwEvidence).2.2.1 (by decide)
  · exact (boundary_equalities_accepted cexExpiredInput 5 cwConstraints 3
      cwEvidence).2.2.2.1 (by decide)
  · exact (boundary_equalities_accepted cwBoundaryInput 0 cwConstraints 3
      cwEvidence).2.2.2.2.1 (by decide)
  · exact (boundary_equalities_accepted cwBoundaryInput 0 cwConstraints 3
      cwEvidence).2.2.2.2.2 (by decide) (by decide)

/-- C5: the staleness age is the saturating subtraction of observation time
from evaluation time, so a future-dated attestation has age zero, is always
deemed fresh by FeedEvidence::is_fresh, and is never rejected as StaleFeed
by the attestation check. -/
theorem future_dated_attestations_never_stale (c : QuoteConstraints) (t : Nat)
    (e : FeedEvidence) (hfut : t ≤ e.timestamp) :
    t - e.timestamp = 0 ∧
    e.is_fresh c.max_staleness_secs t = true ∧
    ∀ s ft ct ms, attestation_check c t e ≠ some (.StaleFeed s ft ct ms) := by
  have hzero : t - e.timestamp = 0 := by omega
  refine ⟨hzero, ?_, ?_⟩
  · simp [FeedEvidence.is_fresh, hzero]
  · intro s ft ct ms
    unfold attestation_check
    split_ifs with ha hb
    · simp
    · omega
    · simp

/-- Attestation observed at timestamp 5, used as a future-dated witness. -/
def cwFutureEvidence : FeedEvidence :=
  { source := "FeedA", asset := "dETH", price := 1, timestamp := 5,
    signature := "s" }

/-- Concrete instance of the future-dated-attestation theorem at
evaluation time 2, before the observation time 5. -/
theorem future_dated_attestations_never_stale_witness :
    (2 : Nat) - cwFutureEvidence.timestamp = 0 ∧
    cwFutureEvidence.is_fresh cexConstraints.max_staleness_secs 2 = true ∧
    attestation_check cexConstraints 2 cwFutureEvidence ≠
      some (.StaleFeed "FeedA" 5 2 0) := by
  refine ⟨?_, ?_, ?_⟩
  · exact (future_dated_attestations_never_stale cexConstraints 2
      cwFutureEvidence (by decide)).1
  · exact (future_dated_attestations_never_stale cexConstraints 2
      cwFutureEvidence (by decide)).2.1
  · exact (future_dated_attestations_never_stale cexConstraints 2
      cwFutureEvidence (by decide)).2.2 "FeedA" 5 2 0

/-- C6: a quorum-count failure rejects with QuorumNotMet carrying no spread;
when every attestation passes and at least two prices were supplied, the
spread is (max − min) / min × 100 over all supplied prices, the spread check
is skipped entirely when the minimum price is not positive, and otherwise a
spread strictly above the tolerance rejects with QuorumNotMet carrying the
computed spread. -/
theorem quorum_and_spread_check (input : RfqLocalLawsInput) :
    (input.feed_evidence.length < input.constraints.quorum_count →
      validate_feed_evidence_detailed input =
        .error (.QuorumNotMet input.feed_evidence.length
          input.constraints.quorum_count none
          input.constraints.quorum_tolerance_percent)) ∧
    (∀ p q rest,
      input.constraints.quorum_count ≤ input.feed_evidence.length →
      (∀ e ∈ input.feed_evidence,
        attestation_check input.constraints input.current_timestamp e = none) →
      input.feed_evidence.map FeedEvidence.price = p :: q :: rest →
      (((q :: rest).foldl min p ≤ 0 →
          validate_feed_evidence_detailed input = .ok ()) ∧
       (0 < (q :: rest).foldl min p →
        ((((q :: rest).foldl max p - (q :: rest).foldl min p) /
              (q :: rest).foldl min p) * 100 >
            input.constraints.quorum_tolerance_percent →
          validate_feed_evidence_detailed input =
            .error (.QuorumNotMet (p :: q :: rest).length
              input.constraints.quorum_count
              (some ((((q :: rest).foldl max p - (q :: rest).foldl min p) /
                (q :: rest).foldl min p) * 100))
              input.constraints.quorum_tolerance_percent)) ∧
        ((((q :: rest).foldl max p - (q :: rest).foldl min p) /
              (q :: rest).foldl min p) * 100 ≤
            input.constraints.quorum_tolerance_percent →
          validate_feed_evidence_detailed input = .ok ())))) := by
  constructor
  · intro hq
    rw [validate_feed_evidence_detailed_eq]
    unfold checkFeed
    rw [if_pos hq]
    rfl
  · intro p q rest hq hall hm
    have hnone : input.feed_evidence.findSome?
        (attestation_check input.constraints input.current_timestamp) = none :=
      List.findSome?_eq_none_iff.mpr hall
    have hcf : checkFeed input =
        spread_check input.constraints (p :: q :: rest) := by
      unfold checkFeed
      rw [if_neg (by omega), hnone, hm]
    refine ⟨?_, ?_⟩
    · intro hmin
      rw [validate_feed_evidence_detailed_eq, hcf]
      unfold spread_check
      dsimp only
      rw [if_neg (not_lt.mpr hmin)]
      rfl
    · intro hmin
      refine ⟨?_, ?_⟩
      · intro hsp
        rw [validate_feed_evidence_detailed_eq, hcf]
        unfold spread_check
        dsimp only
        rw [if_pos hmin, if_pos hsp]
        rfl
      · intro hsp
        rw [validate_feed_evidence_detailed_eq, hcf]
        unfold spread_check
        dsimp only
        rw [if_pos hmin, if_neg (not_lt.mpr hsp)]
        rfl

/-- Guardrails for the quorum witnesses: quorum 2, staleness cap 100,
tolerance 50 percent. -/
def cwFeedConstraints : QuoteConstraints :=
  { cexConstraints with
      quorum_count := 2, max_staleness_secs := 100,
      quorum_tolerance_percent := 50 }

/-- Attestation observed at timestamp 50 with the given source and price. -/
def mkAttestation (s : String) (p : ℚ) : FeedEvidence :=
  { source := s, asset := "dETH", price := p, timestamp := 50,
    signature := "sig" }

/-- Quorum requires 2 sources but no attestation is supplied. -/
def cwQuorumFailInput : RfqLocalLawsInput :=
  { cexExpiredInput with
      constraints := cwFeedConstraints,
      current_timestamp := 50, feed_evidence := [] }

/-- Two fresh attestations, one priced 0, so the spread check is skipped. -/
def cwSpreadSkipInput : RfqLocalLawsInput :=
  { cwQuorumFailInput with
    feed_evidence := [mkAttestation "A" 0, mkAttestation "B" 5] }

/-- Two fresh attestations priced 1 and 2: spread 100 percent, above the
50 percent tolerance. -/
def cwSpreadFailInput : RfqLocalLawsInput :=
  { cwQuorumFailInput with
    feed_evidence := [mkAttestation "A" 1, mkAttestation "B" 2] }

/-- Same attestations under a 200 percent tolerance: spread accepted. -/
def cwSpreadPassInput : RfqLocalLawsInput :=
  { cwSpreadFailInput with
    constraints := { cwFeedConstraints with quorum_tolerance_percent := 200 } }

/-- Concrete instances of the quorum and spread theorem. -/
theorem quorum_and_spread_check_witness :
    validate_feed_evidence_detailed cwQuorumFailInput =
      .error (.QuorumNotMet 0 2 none 50) ∧
    validate_feed_evidence_detailed cwSpreadSkipInput = .ok () ∧
    validate_feed_evidence_detailed cwSpreadFailInput =
      .error (.QuorumNotMet 2 2 (some 100) 50) ∧
    validate_feed_evidence_detailed cwSpreadPassInput = .ok () := by
  refine ⟨?_, ?_, ?_, ?_⟩
  · exact Eq.trans ((quorum_and_spread_check cwQuorumFailInput).1 (by decide))
      (by decide)
  · exact Eq.trans (((quorum_and_spread_check cwSpreadSkipInput).2 0 5 []
      (by decide) (by decide) (by decide)).1 (by decide)) (by decide)
  · exact Eq.trans ((((quorum_and_spread_check cwSpreadFailInput).2 1 2 []
      (by decide) (by decide) (by decide)).2 (by decide)).1
      (by norm_num [List.foldl, max_def, min_def, cwSpreadFailInput,
        cwQuorumFailInput, cwFeedConstraints, cexConstraints]))
      (by norm_num [List.foldl, max_def, min_def, cwSpreadFailInput,
        cwQuorumFailInput, cwFeedConstraints, cexConstraints])
  · exact Eq.trans ((((quorum_and_spread_check cwSpreadPassInput).2 1 2 []
      (by decide) (by decide) (by decide)).2 (by decide)).2
      (by norm_num [List.foldl, max_def, min_def, cwSpreadPassInput,
        cwSpreadFailInput, cwQuorumFailInput, cwFeedConstraints,
        cexConstraints]))
      (by decide)

/-!
Offer lifecycle and state store (crates/models/src/quote.rs,
crates/domain/src/state.rs, crates/domain/src/main.rs).  The tokio HashMap
store is modelled as an association list with unique keys; wall-clock reads
(chrono Utc now) are explicit now parameters; random Uuid receipt and fill
identifiers are omitted.
-/

/-- Trade side (crates/models/src/quote.rs, enum Side). -/
inductive Side where
  | Buy
  | Sell
  deriving DecidableEq

/-- Offer status (crates/models/src/quote.rs, enum QuoteStatus). -/
inductive QuoteStatus where
  | Active
  | Filled
  | Expired
  | Cancelled
  deriving DecidableEq

/-- Offer specification (crates/models/src/quote.rs, struct QuoteSpec). -/
structure QuoteSpec where
  asset : String
  size : ℚ
  side : Side
  limit_price : Option ℚ
  currency : String
  deriving DecidableEq

/-- A posted offer (crates/models/src/quote.rs, struct Quote); the Uuid id is
modelled as a natural number. -/
structure Quote where
  id : Nat
  spec : QuoteSpec
  constraints : QuoteConstraints
  status : QuoteStatus
  created_at : Nat
  expires_at : Nat
  maker_owner_id : String
  maker_vault_address : String
  original_text : String
  deriving DecidableEq

/-- Models Quote::is_active: Active status and the wall clock strictly before
the expiry instant. -/
def Quote.is_active (q : Quote) (now : Nat) : Bool :=
  decide (q.status = QuoteStatus.Active) && decide (now < q.expires_at)

/-- Models Quote::is_expired: the wall clock at or past the expiry instant. -/
def Quote.is_expired (q : Quote) (now : Nat) : Bool :=
  decide (q.expires_at ≤ now)

/-- Fill request body (crates/models/src/fill.rs, struct FillRequest). -/
structure FillRequest where
  taker_owner_id : String
  taker_shard : Nat
  size : ℚ
  price : ℚ
  feed_evidence : List FeedEvidence
  deriving DecidableEq

/-- Fill attempt snapshot (crates/models/src/fill.rs, struct FillAttempt);
the random fill and quote ids are omitted. -/
structure FillAttempt where
  taker_owner_id : String
  taker_shard : Nat
  size : ℚ
  price : ℚ
  feed_evidence : List FeedEvidence
  attempted_at : Nat
  deriving DecidableEq

/-- Settlement summary (crates/models/src/fill.rs, struct SettlementDetails). -/
structure SettlementDetails where
  maker_debit : Nat
  maker_credit : Nat
  taker_debit : Nat
  taker_credit : Nat
  asset : String
  currency : String
  settled_at : Nat
  deriving DecidableEq

/-- Fill outcome (crates/models/src/fill.rs, enum FillResult); the random
fill id and the sdl hash string are omitted. -/
inductive FillResult where
  | Accepted (settlement : SettlementDetails)
  | Rejected (reason : RejectionReason)
  deriving DecidableEq

/-- Receipt of a fill attempt (crates/models/src/receipt.rs, struct
FillReceipt); the random receipt id is omitted and generated_at is the
wall clock passed by the caller. -/
structure FillReceipt where
  quote : Quote
  constraints : QuoteConstraints
  fill_attempt : FillAttempt
  result : FillResult
  generated_at : Nat
  deriving DecidableEq

/-- Association-list lookup modelling HashMap get. -/
def alistGet {α : Type} : List (Nat × α) → Nat → Option α
  | [], _ => none
  | (k, v) :: rest, i => if k = i then some v else alistGet rest i

/-- Association-list insert-or-replace modelling HashMap insert. -/
def alistInsert {α : Type} : List (Nat × α) → Nat → α → List (Nat × α)
  | [], k, v => [(k, v)]
  | (k0, v0) :: rest, k, v =>
    if k0 = k then (k, v) :: rest else (k0, v0) :: alistInsert rest k v

/-- The in-memory domain state (crates/domain/src/state.rs, struct
DomainState): offers by id and receipt lists by offer id. -/
structure DomainState where
  quotes : List (Nat × Quote)
  receipts : List (Nat × List FillReceipt)
  deriving DecidableEq

/-- Models DomainState::get_quote: read without mutation. -/
def DomainState.get_quote (st : DomainState) (id : Nat) : Option Quote :=
  alistGet st.quotes id

/-- Models DomainState::get_all_quotes: all stored offers. -/
def DomainState.get_all_quotes (st : DomainState) : List Quote :=
  st.quotes.map Prod.snd

/-- Models DomainState::get_active_quotes: filter by Quote::is_active at the
wall clock; the stored offers are not modified. -/
def DomainState.get_active_quotes (st : DomainState) (now : Nat) : List Quote :=
  (st.quotes.map Prod.snd).filter (fun q => q.is_active now)

/-- Models DomainState::update_quote (and add_quote): insert by offer id. -/
def DomainState.update_quote (st : DomainState) (q : Quote) : DomainState :=
  { st with quotes := alistInsert st.quotes q.id q }

/-- Models DomainState::add_receipt: push onto the offer's receipt list,
starting from the empty list when absent. -/
def DomainState.add_receipt (st : DomainState) (id : Nat) (r : FillReceipt) :
    DomainState :=
  { st with receipts :=
      alistInsert st.receipts id ((alistGet st.receipts id).getD [] ++ [r]) }

/-- Models DomainState::get_receipts. -/
def DomainState.get_receipts (st : DomainState) (id : Nat) : List FillReceipt :=
  (alistGet st.receipts id).getD []

lemma alistGet_insert_self {α : Type} (l : List (Nat × α)) (k : Nat) (v : α) :
    alistGet (alistInsert l k v) k = some v := by
  induction l with
  | nil => simp [alistInsert, alistGet]
  | cons p rest ih =>
    by_cases h : p.1 = k
    · simp [alistInsert, alistGet, h]
    · simp [alistInsert, alistGet, h, ih]

lemma get_receipts_add_receipt (st : DomainState) (id : Nat) (r : FillReceipt) :
    (st.add_receipt id r).get_receipts id = st.get_receipts id ++ [r] := by
  unfold DomainState.add_receipt DomainState.get_receipts
  rw [alistGet_insert_self]
  rfl

/-- Models the Rust cast from f64 to u64 (truncation toward zero, negative
values to zero, saturation at the largest u64). -/
def rust_cast_u64 (x : ℚ) : Nat :=
  min (Int.toNat ⌊x⌋) (2 ^ 64 - 1)

/-- Local-laws input built by the fill handler
(crates/domain/src/main.rs lines 432-442): sizes scaled to smallest units,
exactly two transfer legs, no extra transfers. -/
def mk_local_laws_input (quote : Quote) (req : FillRequest)
    (current_timestamp : Nat) : RfqLocalLawsInput :=
  { constraints := quote.constraints
    taker_owner_id := req.taker_owner_id
    fill_size := rust_cast_u64 (req.size * 1000000000)
    fill_price := rust_cast_u64 (req.price * req.size * 1000000000)
    feed_evidence := req.feed_evidence
    current_timestamp := current_timestamp
    transfer_leg_count := 2
    has_extra_transfers := false }

/-- Fill-attempt snapshot built by the fill handler from the request. -/
def mkFillAttempt (req : FillRequest) (now : Nat) : FillAttempt :=
  { taker_owner_id := req.taker_owner_id, taker_shard := req.taker_shard,
    size := req.size, price := req.price, feed_evidence := req.feed_evidence,
    attempted_at := now }

/-- Sequential model of the fill handler fill_quote
(crates/domain/src/main.rs lines 363-503).  The returned Option is none for
the 404 path (offer id unknown, no receipt recorded).  A non-Active offer is
rejected before validate_fill is invoked, with QuoteExpired when past expiry
and AlreadyFilled otherwise; an Active offer is validated, on Ok the offer is
marked Filled and an Accepted receipt appended, on Err a Rejected receipt is
appended.  The proof-submission side effects (sdl hash) are outside the
store and omitted. -/
def fill_quote (st : DomainState) (id : Nat) (req : FillRequest) (now : Nat) :
    DomainState × Option FillResult :=
  match st.get_quote id with
  | none => (st, none)
  | some quote =>
    if quote.is_active now = false then
      let reason := if quote.is_expired now = true
        then RejectionReason.QuoteExpired quote.expires_at now
        else RejectionReason.AlreadyFilled now
      let receipt : FillReceipt :=
        { quote := quote, constraints := quote.constraints,
          fill_attempt := mkFillAttempt req now,
          result := .Rejected reason, generated_at := now }
      (st.add_receipt id receipt, some (.Rejected reason))
    else
      match validate_fill (mk_local_laws_input quote req now) now with
      | .ok _ =>
        let quote2 := { quote with status := QuoteStatus.Filled }
        let settlement : SettlementDetails :=
          { maker_debit := (mk_local_laws_input quote req now).fill_price,
            maker_credit := (mk_local_laws_input quote req now).fill_size,
            taker_debit := (mk_local_laws_input quote req now).fill_size,
            taker_credit := (mk_local_laws_input quote req now).fill_price,
            asset := quote.spec.asset, currency := quote.spec.currency,
            settled_at := now }
        let receipt : FillReceipt :=
          { quote := quote2, constraints := quote2.constraints,
            fill_attempt := mkFillAttempt req now,
            result := .Accepted settlement, generated_at := now }
        ((st.update_quote quote2).add_receipt id receipt,
          some (.Accepted settlement))
      | .error reason =>
        let receipt : FillReceipt :=
          { quote := quote, constraints := quote.constraints,
            fill_attempt := mkFillAttempt req now,
            result := .Rejected reason, generated_at := now }
        (st.add_receipt id receipt, some (.Rejected reason))

/-- C7: a fill attempt against a stored offer that is not Active at the wall
clock never reaches the validation engine: whatever the fill evidence, it is
rejected immediately, with QuoteExpired when the wall clock is at or past
expires_at and AlreadyFilled otherwise (the same RejectionReason taxonomy as
engine rejections), a Rejected receipt for the attempt is appended to the
store, and the stored offers are unchanged. -/
theorem inactive_quote_rejected_before_engine (st : DomainState) (id : Nat)
    (req : FillRequest) (now : Nat) (q : Quote)
    (hq : st.get_quote id = some q) (hact : q.is_active now = false) :
    (fill_quote st id req now).2 =
      some (.Rejected (if q.is_expired now = true
        then .QuoteExpired q.expires_at now
        else .AlreadyFilled now)) ∧
    (fill_quote st id req now).1.get_receipts id =
      st.get_receipts id ++
        [{ quote := q, constraints := q.constraints,
           fill_attempt := mkFillAttempt req now,
           result := .Rejected (if q.is_expired now = true
             then .QuoteExpired q.expires_at now
             else .AlreadyFilled now),
           generated_at := now }] ∧
    (fill_quote st id req now).1.quotes = st.quotes := by
  unfold fill_quote
  rw [hq]
  dsimp only
  rw [if_pos hact]
  refine ⟨rfl, ?_, rfl⟩
  exact get_receipts_add_receipt st id _

/-- Offer specification shared by the lifecycle witnesses. -/
def cwQuoteSpec : QuoteSpec :=
  { asset := "dETH", size := 1, side := .Sell, limit_price := none,
    currency := "USDD" }

/-- An already-filled offer that has not yet expired. -/
def cwFilledQuote : Quote :=
  { id := 7, spec := cwQuoteSpec, constraints := cwConstraints,
    status := .Filled, created_at := 0, expires_at := 100,
    maker_owner_id := "m", maker_vault_address := "m,1",
    original_text := "sell one dETH" }

/-- Store holding only the filled offer, with no receipts yet. -/
def cwStore : DomainState := { quotes := [(7, cwFilledQuote)], receipts := [] }

/-- A fill request used by the lifecycle witnesses. -/
def cwRequest : FillRequest :=
  { taker_owner_id := "t", taker_shard := 1, size := 1, price := 1,
    feed_evidence := [] }

/-- Concrete instance of the early-rejection theorem: filling the
already-filled, unexpired offer at wall clock 5 yields AlreadyFilled and
appends exactly one Rejected receipt. -/
theorem inactive_quote_rejected_before_engine_witness :
    (fill_quote cwStore 7 cwRequest 5).2 =
      some (.Rejected (.AlreadyFilled 5)) ∧
    (fill_quote cwStore 7 cwRequest 5).1.get_receipts 7 =
      [{ quote := cwFilledQuote, constraints := cwFilledQuote.constraints,
         fill_attempt := mkFillAttempt cwRequest 5,
         result := .Rejected (.AlreadyFilled 5), generated_at := 5 }] ∧
    (fill_quote cwStore 7 cwRequest 5).1.quotes = [(7, cwFilledQuote)] := by
  obtain ⟨h1, h2, h3⟩ := inactive_quote_rejected_before_engine cwStore 7
    cwRequest 5 cwFilledQuote (by decide) (by decide)
  refine ⟨h1.trans (by decide), h2.trans (by decide), h3.trans (by decide)⟩

/-- Model of the get-by-id read (DomainState::get_quote behind the get_quote
handler, crates/domain/src/main.rs lines 296-306): the store is read under
the lock and the offer cloned; no write happens, so the post-read store (the
first component) is the input store unchanged. -/
def readQuoteById (st : DomainState) (id : Nat) : DomainState × Option Quote :=
  (st, st.get_quote id)

/-- Lazy expiry promotion applied per offer by the list_quotes handler
(crates/domain/src/main.rs lines 283-289). -/
def promoteQuote (now : Nat) (q : Quote) : Quote :=
  if q.status = QuoteStatus.Active ∧ q.is_expired now = true
  then { q with status := QuoteStatus.Expired }
  else q

/-- Model of the list_quotes handler (crates/domain/src/main.rs lines
279-293): every stored offer is promoted when Active and past expiry, the
promotions are persisted through update_quote (rendered as a pointwise map,
which agrees with per-offer insert under the unique keys the HashMap
guarantees), and the promoted offers are returned. -/
def list_quotes (st : DomainState) (now : Nat) : DomainState × List Quote :=
  let promoted := st.quotes.map (fun p => (p.1, promoteQuote now p.2))
  ({ st with quotes := promoted }, promoted.map Prod.snd)

/-- C8 (amended): lazy expiry promotion happens on the list-all read: after
list_quotes no stored offer is both Active and past expiry; the
active-quotes listing never contains an offer whose expiry has been reached
(it filters without promoting); and the get-by-id read leaves the store
unchanged. -/
theorem lazy_expiry_promotion (st : DomainState) (now : Nat) (id : Nat) :
    (∀ p ∈ (list_quotes st now).1.quotes,
      ¬((p : Nat × Quote).2.status = QuoteStatus.Active ∧
        p.2.expires_at ≤ now)) ∧
    (∀ q ∈ st.get_active_quotes now, now < q.expires_at) ∧
    (readQuoteById st id).1 = st := by
  refine ⟨?_, ?_, rfl⟩
  · intro p hp
    unfold list_quotes at hp
    dsimp only at hp
    rw [List.mem_map] at hp
    obtain ⟨p0, _, rfl⟩ := hp
    by_cases h : p0.2.status = QuoteStatus.Active ∧ p0.2.is_expired now = true
    · simp [promoteQuote, h]
    · simp only [promoteQuote, if_neg h]
      intro hcon
      exact h ⟨hcon.1, by simp [Quote.is_expired, hcon.2]⟩
  · intro q hq
    unfold DomainState.get_active_quotes at hq
    rw [List.mem_filter] at hq
    have h := hq.2
    unfold Quote.is_active at h
    simp only [Bool.and_eq_true, decide_eq_true_eq] at h
    exact h.2

/-- An offer still marked Active whose expiry instant 10 has been reached. -/
def cwActiveExpiredQuote : Quote :=
  { cwFilledQuote with id := 3, status := .Active, expires_at := 10 }

/-- Store holding only the overdue Active offer. -/
def cwExpStore : DomainState :=
  { quotes := [(3, cwActiveExpiredQuote)], receipts := [] }

/-- An Active offer expiring at 100, listed as active at wall clock 5. -/
def cwLiveQuote : Quote :=
  { cwFilledQuote with id := 4, status := .Active, expires_at := 100 }

/-- Store holding only the live offer. -/
def cwLiveStore : DomainState := { quotes := [(4, cwLiveQuote)], receipts := [] }

/-- Concrete instances of the amended lazy-promotion theorem. -/
theorem lazy_expiry_promotion_witness :
    ¬((3, promoteQuote 10 cwActiveExpiredQuote).2.status = QuoteStatus.Active ∧
      (3, promoteQuote 10 cwActiveExpiredQuote).2.expires_at ≤ 10) ∧
    (5 : Nat) < cwLiveQuote.expires_at ∧
    (readQuoteById cwExpStore 3).1 = cwExpStore := by
  refine ⟨?_, ?_, ?_⟩
  · exact (lazy_expiry_promotion cwExpStore 10 3).1
      (3, promoteQuote 10 cwActiveExpiredQuote) (by decide)
  · exact (lazy_expiry_promotion cwLiveStore 5 0).2.1 cwLiveQuote (by decide)
  · exact (lazy_expiry_promotion cwExpStore 10 3).2.2

/-- C8 (refuted as stated): the get-by-id read does not promote an overdue
Active offer; at a read time at-or-past the expiry instant the store after
the read still holds the offer with status Active, not Expired. -/
theorem read_by_id_does_not_promote :
    cwActiveExpiredQuote.expires_at ≤ 10 ∧
    (readQuoteById cwExpStore 3).2 = some cwActiveExpiredQuote ∧
    (readQuoteById cwExpStore 3).1.get_quote 3 = some cwActiveExpiredQuote ∧
    cwActiveExpiredQuote.status = QuoteStatus.Active ∧
    cwActiveExpiredQuote.status ≠ QuoteStatus.Expired := by
  refine ⟨by decide, by decide, by decide, by decide, by decide⟩

/-!
Interleaving model of two concurrent fill handlers against one offer.  The
source serialises individual store operations through the read/write locks,
but fill_quote holds no lock across the whole handler: the Active check uses
a snapshot from get_quote, and update_quote plus add_receipt run later under
separate write locks.  Each task is therefore split at the lock boundaries
into a read-and-decide step (get_quote, Active check, validate_fill on the
snapshot) and a commit step (update_quote for an accepted fill, then
add_receipt).  Merging update_quote and add_receipt into one atomic commit
only removes interleavings, so any violation exhibited in this model is also
reachable in the finer-grained source.
-/

/-- Progress state of one in-flight fill handler. -/
inductive FillTask where
  | ready (req : FillRequest)
  | decided (req : FillRequest) (quote : Quote) (res : FillResult)
  | missing
  | done (res : FillResult)
  deriving DecidableEq

/-- The read-and-decide region of fill_quote: everything from get_quote up to
the validate_fill verdict, computed on the snapshot read from the store. -/
def fill_read_step (st : DomainState) (id : Nat) (now : Nat)
    (req : FillRequest) : FillTask :=
  match st.get_quote id with
  | none => .missing
  | some quote =>
    if quote.is_active now = false then
      .decided req quote (.Rejected (if quote.is_expired now = true
        then .QuoteExpired quote.expires_at now
        else .AlreadyFilled now))
    else
      match validate_fill (mk_local_laws_input quote req now) now with
      | .ok _ =>
        .decided req { quote with status := QuoteStatus.Filled }
          (.Accepted
            { maker_debit := (mk_local_laws_input quote req now).fill_price,
              maker_credit := (mk_local_laws_input quote req now).fill_size,
              taker_debit := (mk_local_laws_input quote req now).fill_size,
              taker_credit := (mk_local_laws_input quote req now).fill_price,
              asset := quote.spec.asset, currency := quote.spec.currency,
              settled_at := now })
      | .error r => .decided req quote (.Rejected r)

/-- The commit region of fill_quote: persist the Filled offer for an accepted
fill, then append the receipt.  The decision is not re-checked against the
current store, exactly as in the source. -/
def fill_commit_step (st : DomainState) (id : Nat) (now : Nat) :
    FillTask → DomainState × FillTask
  | .decided req q res =>
    let receipt : FillReceipt :=
      { quote := q, constraints := q.constraints,
        fill_attempt := mkFillAttempt req now, result := res,
        generated_at := now }
    match res with
    | .Accepted _ => ((st.update_quote q).add_receipt id receipt, .done res)
    | .Rejected _ => (st.add_receipt id receipt, .done res)
  | t => (st, t)

/-- One atomic step of a task against the shared store. -/
def fill_step (st : DomainState) (id : Nat) (now : Nat) :
    FillTask → DomainState × FillTask
  | .ready req => (st, fill_read_step st id now req)
  | t => fill_commit_step st id now t

/-- Runs two fill tasks under the given schedule (true steps the first task,
false the second). -/
def run_two_fills (id now : Nat) :
    List Bool → DomainState × FillTask × FillTask →
      DomainState × FillTask × FillTask
  | [], s => s
  | b :: rest, (st, t1, t2) =>
    if b then
      let r := fill_step st id now t1
      run_two_fills id now rest (r.1, r.2, t2)
    else
      let r := fill_step st id now t2
      run_two_fills id now rest (r.1, t1, r.2)

/-- Number of Accepted receipts in a receipt list. -/
def count_accepted (rs : List FillReceipt) : Nat :=
  (rs.filter (fun r => match r.result with
    | .Accepted _ => true
    | .Rejected _ => false)).length

/-- Permissive guardrails matching the race request: caps equal to the scaled
size and notional of a one-unit fill at price one. -/
def cwRaceConstraints : QuoteConstraints :=
  { cexConstraints with
      max_debit := 1000000000, max_fill_size := 1000000000 }

/-- The Active, unexpired offer both concurrent fills target. -/
def cwRaceQuote : Quote :=
  { cwFilledQuote with
      id := 9, status := .Active, expires_at := 100,
      constraints := cwRaceConstraints }

/-- Store holding only the race offer. -/
def cwRaceStore : DomainState := { quotes := [(9, cwRaceQuote)], receipts := [] }

/-- The local-laws input the handler builds for the race request: one unit
at price one, scaled to smallest units. -/
def cwRaceInput : RfqLocalLawsInput :=
  { constraints := cwRaceConstraints, taker_owner_id := "t",
    fill_size := 1000000000, fill_price := 1000000000, feed_evidence := [],
    current_timestamp := 5, transfer_leg_count := 2,
    has_extra_transfers := false }

lemma rust_cast_u64_billion : rust_cast_u64 ((1 : ℚ) * 1000000000) = 1000000000 := by
  unfold rust_cast_u64
  have h : ((1 : ℚ) * 1000000000) = ((1000000000 : ℕ) : ℚ) := by norm_num
  rw [h, Int.floor_natCast, Int.toNat_natCast, min_eq_left (by norm_num)]

lemma rust_cast_u64_billion2 :
    rust_cast_u64 ((1 : ℚ) * 1 * 1000000000) = 1000000000 := by
  unfold rust_cast_u64
  have h : ((1 : ℚ) * 1 * 1000000000) = ((1000000000 : ℕ) : ℚ) := by norm_num
  rw [h, Int.floor_natCast, Int.toNat_natCast, min_eq_left (by norm_num)]

lemma mk_race_input : mk_local_laws_input cwRaceQuote cwRequest 5 = cwRaceInput := by
  unfold mk_local_laws_input
  simp only [cwRequest]
  rw [rust_cast_u64_billion, rust_cast_u64_billion2]
  rfl

lemma race_validate : validate_fill cwRaceInput 5 = .ok () := by decide

/-- The offer snapshot after the read-and-decide region marks it Filled. -/
def cwRaceFilledQuote : Quote := { cwRaceQuote with status := QuoteStatus.Filled }

/-- Settlement of the race fill: one unit against one billion smallest units. -/
def cwRaceSettlement : SettlementDetails :=
  { maker_debit := 1000000000, maker_credit := 1000000000,
    taker_debit := 1000000000, taker_credit := 1000000000,
    asset := "dETH", currency := "USDD", settled_at := 5 }

lemma race_read_step : fill_read_step cwRaceStore 9 5 cwRequest =
    .decided cwRequest cwRaceFilledQuote (.Accepted cwRaceSettlement) := by
  unfold fill_read_step
  rw [show cwRaceStore.get_quote 9 = some cwRaceQuote from rfl]
  dsimp only
  rw [if_neg (by decide), mk_race_input, race_validate]
  rfl

/-- C9 (the code violates at-most-one-fill): each of the two fill attempts
passes evaluation on its own, yet under the schedule read1, read2, commit1,
commit2 — allowed by the lock structure, since no lock spans the Active
check and the Filled write — both commits append Accepted receipts: the
store ends with two Accepted receipts for the one offer. -/
theorem concurrent_fills_double_accept :
    cwRaceQuote.is_active 5 = true ∧
    validate_fill (mk_local_laws_input cwRaceQuote cwRequest 5) 5 = .ok () ∧
    count_accepted ((run_two_fills 9 5 [true, false, true, false]
      (cwRaceStore, .ready cwRequest, .ready cwRequest)).1.get_receipts 9) = 2 := by
  refine ⟨by decide, ?_, ?_⟩
  · rw [mk_race_input]
    exact race_validate
  · simp only [run_two_fills, fill_step]
    rw [race_read_step]
    simp only [fill_commit_step]
    decide

/-- Erases exactly the fields the claim says the engine never inspects: the
guardrail fields min_credit, nonce and allowed_assets, and the asset and
signature of every attestation.  Two inputs agree after scrubbing precisely
when they differ at most in those fields. -/
def scrub_unread (i : RfqLocalLawsInput) : RfqLocalLawsInput :=
  { i with
      constraints := { i.constraints with
        min_credit := none, nonce := 0, allowed_assets := [] },
      feed_evidence := i.feed_evidence.map
        (fun e => { e with asset := "", signature := "" }) }

lemma collect_valid_prices_scrub (c : QuoteConstraints) (t : Nat) :
    ∀ l : List FeedEvidence,
      collect_valid_prices
        { c with min_credit := none, nonce := 0, allowed_assets := [] } t
        (l.map (fun e => { e with asset := "", signature := "" })) =
      collect_valid_prices c t l
  | [] => rfl
  | e :: rest => by
    simp only [List.map_cons, collect_valid_prices]
    rw [collect_valid_prices_scrub c t rest]

lemma feed_detailed_scrub (i : RfqLocalLawsInput) :
    validate_feed_evidence_detailed (scrub_unread i) =
      validate_feed_evidence_detailed i := by
  unfold validate_feed_evidence_detailed scrub_unread
  dsimp only
  rw [List.length_map, collect_valid_prices_scrub]

lemma validate_fill_scrub (i : RfqLocalLawsInput) (now : Nat) :
    validate_fill (scrub_unread i) now = validate_fill i now := by
  unfold validate_fill
  rw [feed_detailed_scrub]
  dsimp only [scrub_unread, QuoteConstraints.expiry_datetime]

/-- C10: the verdict of validate_fill is independent of the guardrail fields
min_credit, nonce and allowed_assets and of the asset and signature of each
attestation: two inputs that agree once those fields are erased evaluate to
the same Result. -/
theorem unread_fields_do_not_affect_verdict (i1 i2 : RfqLocalLawsInput)
    (now : Nat) (h : scrub_unread i1 = scrub_unread i2) :
    validate_fill i1 now = validate_fill i2 now := by
  rw [← validate_fill_scrub i1 now, h, validate_fill_scrub]

/-- The spread-failure input with the never-inspected fields changed:
nonce, min_credit and allowed_assets on the guardrails, asset and signature
on every attestation. -/
def cwScrubbedVariant : RfqLocalLawsInput :=
  { cwSpreadFailInput with
      constraints := { cwSpreadFailInput.constraints with
        nonce := 42, min_credit := some 7, allowed_assets := ["dBTC"] },
      feed_evidence := cwSpreadFailInput.feed_evidence.map
        (fun e => { e with asset := "other", signature := "zzz" }) }

/-- Concrete instance: the two inputs differing only in uninspected fields
produce the same Result. -/
theorem unread_fields_do_not_affect_verdict_witness :
    validate_fill cwSpreadFailInput 3 = validate_fill cwScrubbedVariant 3 :=
  unread_fields_do_not_affect_verdict cwSpreadFailInput cwScrubbedVariant 3
    (by decide)

end RfqArena
